import Mathlib

/-!
Verification of the `elusive` initramfs generator core
(crates/elusive/src: vfs.rs, newc.rs, kmod.rs, systemd.rs, initramfs.rs).

The Rust code is shallowly embedded: paths become component lists mirroring
`std::path` semantics, the VFS `BTreeMap` becomes an association list with
replace-or-append insertion (iteration order of the map is irrelevant to all
statements proved here because the serializer re-sorts), and host-filesystem /
FFI inputs (the ELF reader, libkmod, the unit-file search) become explicit
environment records.  Recursive builders take a fuel parameter; returning
`none` for every fuel value is non-termination of the embedded recursion, and
`none` is likewise used for the `panic!`/`expect` paths of the original code.
-/

deriving instance DecidableEq for Except

namespace Elusive

/-! ### Path model (mirrors the `std::path` operations the code uses) -/

/-- A single path component after Rust's normalization (`Component`):
either `..` or a normal named component.  `.` components and repeated
separators never occur in the paths the program builds. -/
inductive Comp where
  | parentDir : Comp
  | normal (s : String) : Comp
deriving DecidableEq

/-- A path: an optional leading root plus its components, mirroring
`std::path::PathBuf` for the rootless Unix paths the program manipulates. -/
structure FsPath where
  absolute : Bool
  comps : List Comp
deriving DecidableEq

/-- The root path `/`. -/
def rootPath : FsPath := ⟨true, []⟩

/-- Build an absolute path from component names. -/
def absPath (names : List String) : FsPath := ⟨true, names.map Comp.normal⟩

/-- Build a relative path from component names. -/
def relPath (names : List String) : FsPath := ⟨false, names.map Comp.normal⟩

/-- `Path::parent`: drop the last component; `None` when there is none. -/
def FsPath.parent (p : FsPath) : Option FsPath :=
  match p.comps with
  | [] => none
  | _ :: _ => some ⟨p.absolute, p.comps.dropLast⟩

/-- `Path::is_relative`. -/
def FsPath.isRelative (p : FsPath) : Bool := !p.absolute

/-- `Path::join`: an absolute right operand replaces the left one. -/
def FsPath.join (p q : FsPath) : FsPath :=
  if q.absolute then q else ⟨p.absolute, p.comps ++ q.comps⟩

/-- All component prefixes of a list, shortest first. -/
def compPrefixesAsc : List Comp → List (List Comp)
  | [] => [[]]
  | c :: cs => [] :: (compPrefixesAsc cs).map (fun p => c :: p)

/-- `Path::ancestors` collected into a list: the path itself first, then
each parent in turn (longest prefix first). -/
def FsPath.ancestors (p : FsPath) : List FsPath :=
  (compPrefixesAsc p.comps).reverse.map (fun cs => ⟨p.absolute, cs⟩)

/-- Render one component the way `Path`'s `OsStr` reads. -/
def Comp.render : Comp → String
  | .parentDir => ".."
  | .normal s => s

/-- Render a path to the string `Path::as_os_str` holds for it. -/
def FsPath.render (p : FsPath) : String :=
  (if p.absolute then "/" else "") ++ String.intercalate "/" (p.comps.map Comp.render)

/-- The bytes of a rendered path (UTF-8 code points; all paths in this
development are ASCII so these are exactly the `OsStr` bytes). -/
def FsPath.renderBytes (p : FsPath) : List Nat :=
  p.render.data.map Char.toNat

/-! #### Path ordering, mirroring `Ord for Path`

Rust compares paths as sequences of `Component`s; the derived `Ord` on
`Component` puts `RootDir` before `ParentDir` before `Normal`, and normal
components compare byte-wise. -/

/-- Three-way comparison on `Nat` (byte values). -/
def natCmp (a b : Nat) : Ordering :=
  if a < b then .lt else if a = b then .eq else .gt

/-- Byte-wise lexicographic comparison of strings (as `char` lists). -/
def charsCmp : List Char → List Char → Ordering
  | [], [] => .eq
  | [], _ :: _ => .lt
  | _ :: _, [] => .gt
  | a :: as, b :: bs =>
    match natCmp a.toNat b.toNat with
    | .eq => charsCmp as bs
    | o => o

/-- Comparison of component names. -/
def strCmp (a b : String) : Ordering := charsCmp a.data b.data

/-- Derived `Ord` on `Component`: `ParentDir < Normal`. -/
def compCmp : Comp → Comp → Ordering
  | .parentDir, .parentDir => .eq
  | .parentDir, .normal _ => .lt
  | .normal _, .parentDir => .gt
  | .normal a, .normal b => strCmp a b

/-- Lexicographic comparison of component lists. -/
def compsCmp : List Comp → List Comp → Ordering
  | [], [] => .eq
  | [], _ :: _ => .lt
  | _ :: _, [] => .gt
  | a :: as, b :: bs =>
    match compCmp a b with
    | .eq => compsCmp as bs
    | o => o

/-- `Ord for Path`: component-wise comparison, a leading root being the
smallest component. -/
def pathCmp (p q : FsPath) : Ordering :=
  match p.absolute, q.absolute with
  | true, true => compsCmp p.comps q.comps
  | false, false => compsCmp p.comps q.comps
  | true, false => match q.comps with | [] => .gt | _ :: _ => .lt
  | false, true => match p.comps with | [] => .lt | _ :: _ => .gt

/-- Non-strict path order. -/
def pathLe (p q : FsPath) : Prop := pathCmp p q ≠ .gt

instance : DecidableRel pathLe := fun p q => by
  unfold pathLe; infer_instance

/-- Byte-wise lexicographic strict order on byte lists (the order the spec's
"byte-wise ascending" refers to). -/
def bytesLt : List Nat → List Nat → Bool
  | [], [] => false
  | [], _ :: _ => true
  | _ :: _, [] => false
  | a :: as, b :: bs =>
    if a < b then true else if b < a then false else bytesLt as bs

/-! ### VFS model (`crates/elusive/src/vfs.rs`) -/

/-- `DIRECTORY_MODE` from vfs.rs. -/
def DIRECTORY_MODE : Nat := 0o040755

/-- `FILE_MODE` from vfs.rs. -/
def FILE_MODE : Nat := 0o100644

/-- `SYMLINK_MODE` from vfs.rs. -/
def SYMLINK_MODE : Nat := 0o120000

/-- `VfsError` from vfs.rs. -/
inductive VfsError where
  | noSuchFileOrDirectory (p : FsPath)
  | notADirectory (p : FsPath)
  | fileExists (p : FsPath)
deriving DecidableEq

/-- `Metadata` from vfs.rs (all fields default to zero). -/
structure Metadata where
  mode : Nat := 0
  uid : Nat := 0
  gid : Nat := 0
  nlink : Nat := 0
  mtime : Nat := 0
  devMajor : Nat := 0
  devMinor : Nat := 0
  rdevMajor : Nat := 0
  rdevMinor : Nat := 0
deriving DecidableEq

/-- `Entry` from vfs.rs: metadata plus optional payload bytes. -/
structure Entry where
  metadata : Metadata
  data : Option (List Nat)
deriving DecidableEq

/-- `Entry::directory`. -/
def Entry.directory : Entry := ⟨{ mode := DIRECTORY_MODE }, none⟩

/-- `Entry::file`. -/
def Entry.file (data : List Nat) : Entry := ⟨{ mode := FILE_MODE }, some data⟩

/-- `Entry::symlink`: the payload is the target path's rendered bytes. -/
def Entry.symlink (target : FsPath) : Entry :=
  ⟨{ mode := SYMLINK_MODE }, some target.renderBytes⟩

/-- `Entry::is_dir`: mode equality, not file-type bits. -/
def Entry.isDir (e : Entry) : Bool := e.metadata.mode == DIRECTORY_MODE

/-- `Entry::is_file`. -/
def Entry.isFile (e : Entry) : Bool := e.metadata.mode == FILE_MODE

/-- `Entry::is_symlink`. -/
def Entry.isSymlink (e : Entry) : Bool := e.metadata.mode == SYMLINK_MODE

/-- Association-list lookup, the model of `BTreeMap::get`. -/
def lookupEntry : List (FsPath × Entry) → FsPath → Option Entry
  | [], _ => none
  | (q, e) :: t, p => if q = p then some e else lookupEntry t p

/-- Association-list insert, the model of `BTreeMap::insert` (replace the
binding when the key is present, add it otherwise; the claims proved here
never depend on the map's iteration order since the serializer re-sorts). -/
def insertEntryList : List (FsPath × Entry) → FsPath → Entry → List (FsPath × Entry)
  | [], p, e => [(p, e)]
  | (q, e') :: t, p, e =>
    if q = p then (p, e) :: t else (q, e') :: insertEntryList t p e

/-- `Vfs` from vfs.rs: the path-to-entry table. -/
structure Vfs where
  inner : List (FsPath × Entry)
deriving DecidableEq

/-- `Vfs::new`: a single root `/` directory node. -/
def Vfs.new : Vfs := ⟨[(rootPath, Entry.directory)]⟩

/-- Map lookup on the VFS. -/
def Vfs.get (v : Vfs) (p : FsPath) : Option Entry := lookupEntry v.inner p

/-- Map insert on the VFS. -/
def Vfs.insert (v : Vfs) (p : FsPath) (e : Entry) : Vfs :=
  ⟨insertEntryList v.inner p e⟩

/-- `Vfs::contains`. -/
def Vfs.contains (v : Vfs) (p : FsPath) : Bool := (v.get p).isSome

/-- `Vfs::contains_dir`. -/
def Vfs.containsDir (v : Vfs) (p : FsPath) : Bool :=
  match v.get p with
  | some e => e.isDir
  | none => false

/-- `Vfs::contains_file`. -/
def Vfs.containsFile (v : Vfs) (p : FsPath) : Bool :=
  match v.get p with
  | some e => e.isFile
  | none => false

/-- `Vfs::create_dir`.  The parent checks run first; an existing directory or
symlink at the path is a no-op, an existing file is `FileExists`, any other
existing entry is silently replaced. -/
def Vfs.createDir (v : Vfs) (p : FsPath) : Except VfsError Vfs :=
  match p.parent with
  | some parent =>
    if !v.contains parent then .error (.noSuchFileOrDirectory parent)
    else if v.containsFile parent then .error (.notADirectory parent)
    else
      match v.get p with
      | some e =>
        if e.isDir || e.isSymlink then .ok v
        else if e.isFile then .error (.fileExists p)
        else .ok (v.insert p Entry.directory)
      | none => .ok (v.insert p Entry.directory)
  | none =>
    match v.get p with
    | some e =>
      if e.isDir || e.isSymlink then .ok v
      else if e.isFile then .error (.fileExists p)
      else .ok (v.insert p Entry.directory)
    | none => .ok (v.insert p Entry.directory)

/-- The `create_dir` loop of `Vfs::create_dir_all`, keeping the partial
mutations already performed when a later `create_dir` fails (the Rust code
mutates `self` in place and bubbles the error). -/
def createDirLoop (v : Vfs) : List FsPath → Vfs × Option VfsError
  | [] => (v, none)
  | d :: ds =>
    match v.createDir d with
    | .ok v' => createDirLoop v' ds
    | .error e => (v, some e)

/-- `Vfs::create_dir_all`, state-passing form: the resulting VFS (including
partial mutations) together with the error, if any. -/
def Vfs.createDirAllSt (v : Vfs) (p : FsPath) : Vfs × Option VfsError :=
  if v.containsDir p then (v, none)
  else createDirLoop v p.ancestors.reverse

/-- `Vfs::create_dir_all` in `Except` form, for the call sites that bubble the
error with `?`. -/
def Vfs.createDirAll (v : Vfs) (p : FsPath) : Except VfsError Vfs :=
  match v.createDirAllSt p with
  | (v', none) => .ok v'
  | (_, some e) => .error e

/-- `Vfs::create_entry`: `FileExists` when a file is present, otherwise
insert or overwrite. -/
def Vfs.createEntry (v : Vfs) (p : FsPath) (e : Entry) : Except VfsError Vfs :=
  if v.containsFile p then .error (.fileExists p)
  else .ok (v.insert p e)

/-! ### cpio newc serializer model (`crates/elusive/src/newc.rs`) -/

/-- `INO_OFFSET` from newc.rs. -/
def INO_OFFSET : Nat := 1337

/-- The path argument of the trailer call, `Path::new("TRAILER!!!")`. -/
def trailerPath : FsPath := ⟨false, [.normal "TRAILER!!!"]⟩

/-- Serializer failure: the `CString::new` NUL-byte error (surfaced by the
code as an `io::Error`). -/
inductive SerError where
  | interiorNul
deriving DecidableEq

/-- One lowercase hex digit as a byte. -/
def hexDigitByte (n : Nat) : Nat :=
  if n < 10 then 48 + n else 87 + n

/-- Hex digits of `n`, most significant first (empty for 0); the first
argument is fuel bounding the number of divisions (`n` itself suffices). -/
def hexDigitsGo : Nat → Nat → List Nat
  | 0, _ => []
  | fuel + 1, n =>
    if n = 0 then [] else hexDigitsGo fuel (n / 16) ++ [hexDigitByte (n % 16)]

/-- Hex digits of `n`, most significant first (empty for 0). -/
def hexDigits (n : Nat) : List Nat := hexDigitsGo n n

/-- `write!("{:08x}")`: lowercase hex, zero-padded to at least 8 digits. -/
def hex8 (n : Nat) : List Nat :=
  let ds := if n = 0 then [48] else hexDigits n
  List.replicate (8 - ds.length) 48 ++ ds

/-- The bytes of the `"070701"` magic. -/
def newcMagic : List Nat := [48, 55, 48, 55, 48, 49]

/-- `pad_buf` from newc.rs: pad with zero bytes to a 4-byte boundary. -/
def padBuf (buf : List Nat) : List Nat :=
  let rem := buf.length % 4
  if rem ≠ 0 then buf ++ List.replicate (4 - rem) 0 else buf

/-- Observation record for one serialized header: the path argument, the
emitted filename bytes (without the trailing NUL) and the ino written. -/
structure SerRecord where
  path : FsPath
  name : List Nat
  ino : Nat
deriving DecidableEq

/-- `NewcSerializer` state from newc.rs, extended with the list of
observation records for the headers emitted so far. -/
structure NewcSerializer where
  count : Nat
  buf : List Nat
  recs : List SerRecord
deriving DecidableEq

/-- `NewcSerializer::serialize_entry`.  `none` models the
`strip_prefix("/").expect(..)` panic on a relative non-trailer path; the
`CString` NUL error is the `Except` error. -/
def serializeEntry (s : NewcSerializer) (p : FsPath) (e : Entry) :
    Option (Except SerError NewcSerializer) :=
  if p = rootPath then some (.ok s)
  else
    let rel : Option FsPath :=
      if p = trailerPath then some p
      else if p.absolute then some ⟨false, p.comps⟩
      else none
    match rel with
    | none => none
    | some rel =>
      let nameBytes := rel.renderBytes
      if 0 ∈ nameBytes then some (.error .interiorNul)
      else
        let filename := nameBytes ++ [0]
        let filenameLen := filename.length
        let ino := s.count + INO_OFFSET
        let fileSize :=
          match e.data with
          | some d => d.length
          | none => 0
        let m := e.metadata
        let header :=
          newcMagic ++ hex8 ino ++ hex8 m.mode ++ hex8 m.uid ++ hex8 m.gid ++
          hex8 m.nlink ++ hex8 m.mtime ++ hex8 fileSize ++ hex8 m.devMajor ++
          hex8 m.devMinor ++ hex8 m.rdevMajor ++ hex8 m.rdevMinor ++
          hex8 filenameLen ++ hex8 0
        let buf := padBuf (s.buf ++ header ++ filename)
        let buf :=
          match e.data with
          | some d => padBuf (buf ++ d)
          | none => buf
        some (.ok ⟨s.count + 1, buf, s.recs ++ [⟨p, nameBytes, ino⟩]⟩)

/-- Bind through the combined panic/error monad used by the models. -/
def obind {E α β : Type} (x : Option (Except E α)) (f : α → Option (Except E β)) :
    Option (Except E β) :=
  match x with
  | none => none
  | some (.error e) => some (.error e)
  | some (.ok a) => f a

/-- The serializer loop over the sorted entries. -/
def serializeMany (s : NewcSerializer) :
    List (FsPath × Entry) → Option (Except SerError NewcSerializer)
  | [] => some (.ok s)
  | (p, e) :: t => obind (serializeEntry s p e) (fun s' => serializeMany s' t)

/-- `Archive` from newc.rs. -/
structure Archive where
  entries : List (FsPath × Entry)
deriving DecidableEq

/-- `From<Vfs> for Archive`, draining the VFS. -/
def Archive.fromVfs (v : Vfs) : Archive := ⟨v.inner⟩

/-- The comparator of `entries.sort_by(|l, r| l.0.cmp(&r.0))`. -/
def entryLe (a b : FsPath × Entry) : Prop := pathLe a.1 b.1

instance : DecidableRel entryLe := fun a b => by
  unfold entryLe; infer_instance

/-- `Archive::serialize`: sort by path, serialize every entry, then the
trailer.  Returns the byte stream together with the emission records. -/
def Archive.serialize (a : Archive) :
    Option (Except SerError (List Nat × List SerRecord)) :=
  let sorted := List.insertionSort entryLe a.entries
  obind (serializeMany ⟨0, [], []⟩ sorted) fun s =>
  obind (serializeEntry s trailerPath Entry.directory) fun s' =>
  some (.ok (s'.buf, s'.recs))

/-- The emission records of a successful serialization. -/
def serializeRecords (a : Archive) : Option (List SerRecord) :=
  match a.serialize with
  | some (.ok (_, recs)) => some recs
  | _ => none

/-! ### Kernel-module model (`crates/elusive/src/kmod.rs`)

libkmod is an external native library; module lookup, `.modinfo` reading and
the host filesystem are abstracted as an environment.  The install-path
computation and the magic-byte format detection are translated from the
source. -/

/-- `KmodError` from kmod.rs (the variants the embedded code paths reach). -/
inductive KmodError where
  | inputOutput
  | moduleFromNameFailed (name : String)
  | moduleGetInfoFailed (name : String)
  | tooSmallForMagic
  | unknownMagic
  | moduleBuiltIn
deriving DecidableEq

/-- `ModuleFormat` from kmod.rs. -/
inductive ModuleFormat where
  | elf
  | zstd
  | xz
  | gzip
deriving DecidableEq

/-- `MAGIC_ELF`. -/
def MAGIC_ELF : List Nat := [0x7F, 0x45, 0x4C, 0x46]

/-- `MAGIC_ZSTD`. -/
def MAGIC_ZSTD : List Nat := [0x28, 0xB5, 0x2F, 0xFD]

/-- `MAGIC_XZ`. -/
def MAGIC_XZ : List Nat := [0xFD, 0x37, 0x7A, 0x58, 0x5A, 0x00]

/-- `MAGIC_GZ`. -/
def MAGIC_GZ : List Nat := [0x1F, 0x8B]

/-- `FORMAT_MIN_BYTES_LEN`. -/
def FORMAT_MIN_BYTES_LEN : Nat := 6

/-- `ModuleFormat::from_bytes`: length gate first, then the four magic
prefixes in source order. -/
def ModuleFormat.fromBytes (data : List Nat) : Except KmodError ModuleFormat :=
  if data.length < FORMAT_MIN_BYTES_LEN then .error .tooSmallForMagic
  else if data.take 4 = MAGIC_ELF then .ok .elf
  else if data.take 4 = MAGIC_ZSTD then .ok .zstd
  else if data.take 6 = MAGIC_XZ then .ok .xz
  else if data.take 2 = MAGIC_GZ then .ok .gzip
  else .error .unknownMagic

/-- `ModuleInfo` from kmod.rs. -/
structure ModuleInfo where
  aliases : List String
  depends : List String
  softpre : List String
  softpost : List String
deriving DecidableEq

/-- A `Module` handle: its name, its host path (`None` for a builtin
module) and the result of `Module::info` (`none` models the libkmod
failure). -/
structure KModule where
  name : String
  hostPath : Option FsPath
  infoRes : Option ModuleInfo
deriving DecidableEq

/-- `Path::file_name`: the last component when it is a normal one. -/
def FsPath.fileName (p : FsPath) : Option String :=
  match p.comps.getLast? with
  | some (.normal s) => some s
  | _ => none

/-- `PathBuf::set_file_name`: pop the file name when there is one, then push
the new one. -/
def FsPath.setFileName (p : FsPath) (s : String) : FsPath :=
  match p.fileName with
  | some _ => ⟨p.absolute, p.comps.dropLast ++ [.normal s]⟩
  | none => ⟨p.absolute, p.comps ++ [.normal s]⟩

/-- Split a file name at its last dot, Rust-style: a dot at position zero
does not start an extension. -/
def splitLastDot (cs : List Char) : Option (List Char × List Char) :=
  let r := cs.reverse
  let ext := r.takeWhile (fun c => c ≠ '.')
  match r.drop ext.length with
  | '.' :: stemRev =>
    if stemRev = [] then none else some (stemRev.reverse, ext.reverse)
  | _ => none

/-- `PathBuf::set_extension`: replace (or add) the extension of the file
name; no change when there is no file name. -/
def FsPath.setExtension (p : FsPath) (ext : String) : FsPath :=
  match p.fileName with
  | none => p
  | some name =>
    let stem :=
      match splitLastDot name.data with
      | some (st, _) => String.mk st
      | none => name
    p.setFileName (stem ++ "." ++ ext)

/-- `Path::extension` of the path's file name. -/
def FsPath.extension (p : FsPath) : Option String :=
  match p.fileName with
  | none => none
  | some name =>
    match splitLastDot name.data with
    | some (_, ext) => some (String.mk ext)
    | none => none

/-- `Module::install_path`: builtins have none; otherwise take the host-path
components from `kernel` on, graft them under
`/usr/lib/modules/<release>/`, and normalize the file name to
`<name>.ko`. -/
def KModule.installPath (m : KModule) (release : String) : Except KmodError FsPath :=
  match m.hostPath with
  | none => .error .moduleBuiltIn
  | some host =>
    let inner := host.comps.dropWhile (fun c => c ≠ .normal "kernel")
    let base : FsPath :=
      ⟨true, [.normal "usr", .normal "lib", .normal "modules", .normal release]⟩
    let p : FsPath := ⟨true, base.comps ++ inner⟩
    .ok ((p.setFileName m.name).setExtension "ko")

/-- `Module::is_builtin`. -/
def KModule.isBuiltin (m : KModule) : Bool := m.hostPath.isNone

/-- The libkmod context plus the host filesystem and the external
decompressors, abstracted: `moduleFromName` is
`Kmod::module_from_name` (`none` = `ModuleFromNameFailed`), `readFile`
is `fs::read`, `decompress` is the external codec invoked by
`uncompress_module`. -/
structure KmodEnv where
  release : String
  moduleFromName : String → Option KModule
  readFile : FsPath → Option (List Nat)
  decompress : ModuleFormat → List Nat → Option (List Nat)

/-! ### Initramfs builder model (`crates/elusive/src/initramfs.rs`)

The builder's recursive resolvers are embedded with an explicit fuel
parameter; `none` at every fuel is divergence of the original unbounded
recursion.  Host-filesystem reads and the ELF resolver (elf.rs, whose
internals are driven by host file contents) are abstracted as an
environment. -/

/-- `InitramfsError` from initramfs.rs (payloads elided where no claim
inspects them). -/
inductive InitramfsError where
  | inputOutput
  | vfs (e : VfsError)
  | kmod (e : KmodError)
  | system
  | elf
deriving DecidableEq

/-- Lift a `Vfs` result into the builder's error type (the `From<VfsError>`
conversion behind `?`). -/
def liftVfs (r : Except VfsError Vfs) : Option (Except InitramfsError Vfs) :=
  match r with
  | .ok v => some (.ok v)
  | .error e => some (.error (.vfs e))

/-- The host filesystem as seen by `add_elf`: `findBinary` is
`Elf::find_binary` (`none` = its error), `pathExists` is `Path::exists`,
`readEntry` is `File::open` + `Entry::try_from`, `linkedLibraries` is
`Elf::linked_libraries` (`none` = an `ElfError`). -/
structure ElfEnv where
  findBinary : FsPath → Option FsPath
  pathExists : FsPath → Bool
  readEntry : FsPath → Option Entry
  linkedLibraries : FsPath → Option (List FsPath)

/-- The path-resolution step at the top of `add_elf`: relative arguments go
through `Elf::find_binary`. -/
def resolveElfPath (env : ElfEnv) (p : FsPath) : Option FsPath :=
  if p.isRelative then env.findBinary p else some p

/-- The recursion of `Initramfs::add_elf`, structurally on fuel: `.inl` is
one `add_elf` call, `.inr` the `for dependency in linked_libraries` loop.
Fuel only bounds the recursion depth of the embedding; every recursive
call decrements it. -/
def addElfF (env : ElfEnv) : Nat → Sum FsPath (List FsPath) → Vfs →
    Option (Except InitramfsError Vfs)
  | 0, _, _ => none
  | fuel + 1, .inl p, v =>
    match resolveElfPath env p with
    | none => some (.error .elf)
    | some path =>
      if v.contains path then some (.ok v)
      else
        obind
          (match path.parent with
           | some parent => liftVfs (v.createDirAll parent)
           | none => some (.ok v)) fun v =>
        if !env.pathExists path then some (.error .inputOutput)
        else
          match env.readEntry path with
          | none => some (.error .inputOutput)
          | some entry =>
            obind (liftVfs (v.createEntry path entry)) fun v =>
            match env.linkedLibraries path with
            | none => some (.error .elf)
            | some libs => addElfF env fuel (.inr libs) v
  | _ + 1, .inr [], v => some (.ok v)
  | fuel + 1, .inr (l :: t), v =>
    obind (addElfF env fuel (.inl l) v) (fun v' => addElfF env fuel (.inr t) v')

/-- `Initramfs::add_elf`: resolve, return if the destination is already
present, ensure the parent, read and install the file, then recurse over
its linked libraries. -/
def addElf (fuel : Nat) (env : ElfEnv) (p : FsPath) (v : Vfs) :
    Option (Except InitramfsError Vfs) :=
  addElfF env fuel (.inl p) v

/-- `Initramfs::add_symlink`: skip when the *target* is already present,
otherwise ensure the parent and create the symlink entry. -/
def addSymlink (v : Vfs) (path target : FsPath) :
    Option (Except InitramfsError Vfs) :=
  if v.contains target then some (.ok v)
  else
    obind
      (match path.parent with
       | some parent => liftVfs (v.createDirAll parent)
       | none => some (.ok v)) fun v =>
    liftVfs (v.createEntry path (Entry.symlink target))

/-- The recursion of `Initramfs::add_module`, structurally on fuel: `.inl`
is one `add_module` call, `.inr` the dependency-name loop. -/
def addModuleF (kenv : KmodEnv) : Nat → Sum KModule (List String) → Vfs →
    Option (Except InitramfsError Vfs)
  | 0, _, _ => none
  | fuel + 1, .inl m, v =>
    match m.hostPath with
    | none => some (.ok v)
    | some host =>
      match m.infoRes with
      | none => some (.error (.kmod (.moduleGetInfoFailed m.name)))
      | some info =>
        obind (addModuleF kenv fuel
            (.inr (info.depends ++ info.softpre ++ info.softpost)) v) fun v =>
        match m.installPath kenv.release with
        | .error e => some (.error (.kmod e))
        | .ok path =>
          obind
            (match path.parent with
             | some parent => liftVfs (v.createDirAll parent)
             | none => some (.ok v)) fun v =>
          if v.contains path then some (.ok v)
          else
            match kenv.readFile host with
            | none => some (.error .inputOutput)
            | some compressed =>
              match ModuleFormat.fromBytes compressed with
              | .error e => some (.error (.kmod e))
              | .ok format =>
                match kenv.decompress format compressed with
                | none => some (.error .inputOutput)
                | some data =>
                  liftVfs (v.createEntry path (Entry.file data))
  | _ + 1, .inr [], v => some (.ok v)
  | fuel + 1, .inr (n :: t), v =>
    obind
      (match kenv.moduleFromName n with
       | none => some (.error (.kmod (.moduleFromNameFailed n)))
       | some m => addModuleF kenv fuel (.inl m) v)
      fun v' => addModuleF kenv fuel (.inr t) v'

/-- `Initramfs::add_module`: builtins return immediately; otherwise the
declared dependencies are recursed into *first*, and only then is the
install path checked against the VFS before decompressing and
installing. -/
def addModule (fuel : Nat) (kenv : KmodEnv) (m : KModule) (v : Vfs) :
    Option (Except InitramfsError Vfs) :=
  addModuleF kenv fuel (.inl m) v

/-- A parsed systemd unit as `Unit::from_name` returns it
(`crates/elusive/src/systemd.rs`). -/
structure SdUnit where
  path : FsPath
  data : List Nat
  binaries : List String
  dependencies : List String
  installPath : Option FsPath
deriving DecidableEq

/-- The environment of `add_systemd_unit`: `findUnit` abstracts the
successful outcome of `Unit::from_name` (`none` = its typed error), `elf`
is the host view used for the unit's binaries. -/
structure SdEnv where
  findUnit : String → Option SdUnit
  elf : ElfEnv

/-- The unit-file install block of `add_systemd_unit` (lines 346-354):
skipped when the unit path is already present; `none` models the
`path.parent().expect("parent directory")` panic. -/
def installUnitFile (u : SdUnit) (v : Vfs) : Option (Except InitramfsError Vfs) :=
  if !v.contains u.path then
    match u.path.parent with
    | none => none
    | some parent =>
      obind (liftVfs (v.createDirAll parent)) fun v =>
      liftVfs (v.createEntry u.path (Entry.file u.data))
  else some (.ok v)

/-- The binary loop of `add_systemd_unit`: each `ExecStart` binary goes
through `add_elf` (binary names are relative paths). -/
def addUnitBinaries (fuel : Nat) (env : ElfEnv) (bins : List String) (v : Vfs) :
    Option (Except InitramfsError Vfs) :=
  match bins with
  | [] => some (.ok v)
  | b :: t =>
    obind (addElf fuel env ⟨false, [.normal b]⟩ v)
      (fun v' => addUnitBinaries fuel env t v')

/-- The relative symlink target `Path::new("..").join(name)`. -/
def unitSymlinkTarget (name : String) : FsPath := ⟨false, [.parentDir, .normal name]⟩

/-- The install-symlink block of `add_systemd_unit` (lines 362-365). -/
def installUnitSymlink (name : String) (u : SdUnit) (v : Vfs) :
    Option (Except InitramfsError Vfs) :=
  match u.installPath with
  | some p => addSymlink v p (unitSymlinkTarget name)
  | none => some (.ok v)

/-- The recursion of `Initramfs::add_systemd_unit`, structurally on fuel:
`.inl` is one `add_systemd_unit` call, `.inr` the dependency loop. -/
def addUnitF (env : SdEnv) : Nat → Sum String (List String) → Vfs →
    Option (Except InitramfsError Vfs)
  | 0, _, _ => none
  | fuel + 1, .inl name, v =>
    match env.findUnit name with
    | none => some (.error .system)
    | some u =>
      obind (installUnitFile u v) fun v =>
      obind (addUnitBinaries fuel env.elf u.binaries v) fun v =>
      obind (installUnitSymlink name u v) fun v =>
      addUnitF env fuel (.inr u.dependencies) v
  | _ + 1, .inr [], v => some (.ok v)
  | fuel + 1, .inr (d :: t), v =>
    obind (addUnitF env fuel (.inl d) v) (fun v' => addUnitF env fuel (.inr t) v')

/-- `Initramfs::add_systemd_unit`: install the unit file (if absent), add
its binaries, install the wants-symlink, then recurse into every declared
dependency — the dependency recursion is *not* guarded by any presence
check. -/
def addSystemdUnit (fuel : Nat) (env : SdEnv) (name : String) (v : Vfs) :
    Option (Except InitramfsError Vfs) :=
  addUnitF env fuel (.inl name) v

/-- The dependency loop of `add_systemd_unit`, as its own entry point. -/
def addUnitDeps (fuel : Nat) (env : SdEnv) (names : List String) (v : Vfs) :
    Option (Except InitramfsError Vfs) :=
  addUnitF env fuel (.inr names) v

/-! ### VFS operation sequences (for reachability statements) -/

/-- One public mutating VFS operation. -/
inductive VfsOp where
  | createDir (p : FsPath)
  | createDirAll (p : FsPath)
  | createEntry (p : FsPath) (e : Entry)
deriving DecidableEq

/-- Apply one operation, keeping the state the operation left behind
(`create_dir_all` keeps its partial mutations on failure; the other two
mutate nothing when they fail). -/
def applyOp (v : Vfs) : VfsOp → Vfs
  | .createDir p =>
    match v.createDir p with
    | .ok v' => v'
    | .error _ => v
  | .createDirAll p => (v.createDirAllSt p).1
  | .createEntry p e =>
    match v.createEntry p e with
    | .ok v' => v'
    | .error _ => v

/-- Run a sequence of operations from `Vfs::new()`. -/
def runOps (ops : List VfsOp) : Vfs := ops.foldl applyOp Vfs.new

/-! ### Systemd unit resolver model (`crates/elusive/src/systemd.rs`) -/

/-- `UnitError` from systemd.rs. -/
inductive UnitError where
  | inputOutput
  | parse
  | unitNotFound (name : String)
deriving DecidableEq

/-- One meaningful line of a unit file. -/
inductive UnitLine where
  | sectionHeader (name : String)
  | property (key value : String)
deriving DecidableEq

/-- Unit-file whitespace. -/
def isWsChar (c : Char) : Bool := c = ' ' || c = '\t' || c = '\r' || c = '\n'

/-- Trim whitespace from both ends of a character list. -/
def trimChars (cs : List Char) : List Char :=
  ((cs.dropWhile isWsChar).reverse.dropWhile isWsChar).reverse

/-- Split a character list on a separator (like `str::split`). -/
def splitOnChar (sep : Char) : List Char → List (List Char)
  | [] => [[]]
  | c :: t =>
    let r := splitOnChar sep t
    if c = sep then [] :: r
    else
      match r with
      | h :: t' => (c :: h) :: t'
      | [] => [[c]]

/-- Does the list start with the given character? -/
def startsWithChar (c : Char) : List Char → Bool
  | [] => false
  | a :: _ => a = c

/-- Is the first list a prefix of the second? -/
def listStartsWith : List Char → List Char → Bool
  | [], _ => true
  | _ :: _, [] => false
  | a :: as, b :: bs => a = b && listStartsWith as bs

/-- `str::ends_with`. -/
def listEndsWith (suffix cs : List Char) : Bool :=
  listStartsWith suffix.reverse cs.reverse

/-- Modelled from the spec: the pest grammar file `systemd.pest` referenced
by systemd.rs is not under src/, so the grammar is taken from §4.6 of the
specification — a unit file is a sequence of `[Name]` section headers and
`Key=Value` lines; whitespace around them is insignificant, `#`/`;` comment
lines and blank lines are ignored, and a value is the remainder of the
line.  `none` is a parse error. -/
def parseUnitLine (line : List Char) : Option (Option UnitLine) :=
  let t := trimChars line
  if t = [] then some none
  else if startsWithChar '#' t || startsWithChar ';' t then some none
  else if startsWithChar '[' t then
    if t.getLast? = some ']' then
      some (some (.sectionHeader (String.mk (t.drop 1).dropLast)))
    else none
  else
    match splitOnChar '=' t with
    | key :: rest =>
      if rest = [] then none
      else
        some (some (.property (String.mk (trimChars key))
          (String.mk (List.intercalate ['='] rest))))
    | [] => none

/-- Modelled from the spec: parse a whole unit file into its meaningful
lines (see `parseUnitLine`). -/
def parseUnit (text : String) : Option (List UnitLine) :=
  (splitOnChar '\n' text.data).foldr
    (fun line acc =>
      match acc, parseUnitLine line with
      | some ls, some (some l) => some (l :: ls)
      | some ls, some none => some ls
      | _, _ => none)
    (some [])

/-- Lookup in the association lists standing in for the `BTreeMap`s of
`Unit::from_name`. -/
def alistGet {α : Type} (l : List (String × α)) (k : String) : Option α :=
  match l with
  | [] => none
  | (k', a) :: t => if k' = k then some a else alistGet t k

/-- Insert-or-update for those association lists. -/
def alistUpdate {α : Type} (l : List (String × α)) (k : String) (d : α)
    (f : α → α) : List (String × α) :=
  match l with
  | [] => [(k, f d)]
  | (k', a) :: t =>
    if k' = k then (k', f a) :: t else (k', a) :: alistUpdate t k d f

/-- The property-collection loop of `Unit::from_name` (lines 92-114): fold
the parsed lines into `section → key → list of values`, the current section
starting as the empty string. -/
def buildProperties (lines : List UnitLine) :
    List (String × List (String × List String)) :=
  (lines.foldl
    (fun st l =>
      match st, l with
      | (_, props), .sectionHeader s => (s, props)
      | (cur, props), .property k val =>
        (cur, alistUpdate props cur []
          (fun sect => alistUpdate sect k [] (fun vs => vs ++ [val]))))
    ("", [])).2

/-- `cmd_exec_path` from systemd.rs: first space-separated token with the
leading sigils `@!:+-` stripped. -/
def cmdExecPath (command : String) : String :=
  let first :=
    match splitOnChar ' ' command.data with
    | t :: _ => t
    | [] => []
  String.mk (first.dropWhile
    (fun c => c = '@' || c = '!' || c = ':' || c = '+' || c = '-'))

/-- `UNIT_INSTALL_PATHS` from systemd.rs. -/
def UNIT_INSTALL_PATHS : List FsPath :=
  [absPath ["usr", "lib", "systemd", "system", "initrd.target.wants"],
   absPath ["usr", "lib", "systemd", "system", "initrd-root-device.target.wants"],
   absPath ["usr", "lib", "systemd", "system", "initrd-root-fs.target.wants"],
   absPath ["usr", "lib", "systemd", "system", "sysinit.target.wants"]]

/-- `SOCKET_INSTALL_PATHS` from systemd.rs. -/
def SOCKET_INSTALL_PATHS : List FsPath :=
  [absPath ["usr", "lib", "systemd", "system", "sockets.target.wants"]]

/-- The host filesystem as `Unit::from_name` sees it: `findUnit` is
`Unit::find_unit` (the `search_paths` result over the unit search
directories), `readToString` is `fs::read_to_string`, `pathExists` is the
`Path::exists` probe of the install-path search. -/
structure UnitHost where
  findUnit : String → Option FsPath
  readToString : FsPath → Option String
  pathExists : FsPath → Bool

/-- `Unit::from_name`: search, read, parse, collect properties, then extract
binaries (`[Service]`/`ExecStart`), dependencies (`[Unit]`/`Requires`,
dropping `.slice` entries) and the install path.  `none` models the two
`expect` panics: a parsed file without a `[Unit]` section, and a
`[Service]` section without an `ExecStart` key. -/
def unitFromName (host : UnitHost) (name : String) :
    Option (Except UnitError SdUnit) :=
  match host.findUnit name with
  | none => some (.error (.unitNotFound name))
  | some path =>
    match host.readToString path with
    | none => some (.error .inputOutput)
    | some data =>
      match parseUnit data with
      | none => some (.error .parse)
      | some lines =>
        let props := buildProperties lines
        let binariesRes : Option (List String) :=
          match alistGet props "Service" with
          | some service =>
            match alistGet service "ExecStart" with
            | none => none
            | some commands => some (commands.map cmdExecPath)
          | none => some []
        match binariesRes with
        | none => none
        | some binaries =>
          match alistGet props "Unit" with
          | none => none
          | some unitSection =>
            let dependencies :=
              match alistGet unitSection "Requires" with
              | some required =>
                ((splitOnChar ' ' (required.headD "").data).map String.mk).filter
                  (fun dep => !listEndsWith ".slice".data dep.data)
              | none => []
            let staticPaths :=
              match path.extension with
              | some "path" => UNIT_INSTALL_PATHS
              | some "service" => UNIT_INSTALL_PATHS
              | some "target" => UNIT_INSTALL_PATHS
              | some "socket" => SOCKET_INSTALL_PATHS
              | _ => []
            let installPath :=
              (staticPaths.map
                (fun p => p.join ⟨false, [.normal name]⟩)).find?
                host.pathExists
            some (.ok
              ⟨path, data.data.map Char.toNat, binaries, dependencies, installPath⟩)

/-! ### Basic VFS lemmas -/

theorem lookupEntry_insert_self (l : List (FsPath × Entry)) (p : FsPath) (e : Entry) :
    lookupEntry (insertEntryList l p e) p = some e := by
  induction l with
  | nil => simp [insertEntryList, lookupEntry]
  | cons kv t ih =>
    obtain ⟨q, e'⟩ := kv
    by_cases h : q = p
    · subst h; simp [insertEntryList, lookupEntry]
    · simp [insertEntryList, lookupEntry, h, ih]

theorem lookupEntry_insert_ne (l : List (FsPath × Entry)) (p q : FsPath) (e : Entry)
    (h : q ≠ p) : lookupEntry (insertEntryList l p e) q = lookupEntry l q := by
  induction l with
  | nil => simp [insertEntryList, lookupEntry, Ne.symm h]
  | cons kv t ih =>
    obtain ⟨r, e'⟩ := kv
    by_cases hr : r = p
    · subst hr
      simp [insertEntryList, lookupEntry, Ne.symm h]
    · simp only [insertEntryList, if_neg hr, lookupEntry]
      by_cases hq : r = q
      · simp [hq]
      · simp [hq, ih]

theorem Vfs.get_insert_self (v : Vfs) (p : FsPath) (e : Entry) :
    (v.insert p e).get p = some e :=
  lookupEntry_insert_self v.inner p e

theorem Vfs.get_insert_ne (v : Vfs) (p q : FsPath) (e : Entry) (h : q ≠ p) :
    (v.insert p e).get q = v.get q :=
  lookupEntry_insert_ne v.inner p q e h

/-! ### C5 -/

/-- C5: `create_entry(p, e)` fails with `FileExists` exactly when `p` is
present as a file and otherwise inserts or overwrites; in particular adding
a file entry twice at the same path succeeds first and fails with
`FileExists` the second time. -/
theorem c5_create_entry_semantics :
    ∀ (v : Vfs) (p : FsPath) (e : Entry),
      (v.containsFile p = true → v.createEntry p e = .error (.fileExists p)) ∧
      (v.containsFile p = false → v.createEntry p e = .ok (v.insert p e)) ∧
      (∀ (d d' : List Nat) (v' : Vfs),
        v.createEntry p (Entry.file d) = .ok v' →
        v'.createEntry p (Entry.file d') = .error (.fileExists p)) := by
  intro v p e
  refine ⟨fun h => by simp [Vfs.createEntry, h], fun h => by simp [Vfs.createEntry, h], ?_⟩
  intro d d' v' h
  by_cases hf : v.containsFile p = true
  · simp [Vfs.createEntry, hf] at h
  · rw [Vfs.createEntry, if_neg hf] at h
    cases h
    simp [Vfs.createEntry, Vfs.containsFile, Vfs.get_insert_self, Entry.isFile, Entry.file]

/-- Witness for C5 at a concrete input: the second identical file insert
fails. -/
theorem c5_witness :
    (Vfs.new.insert (absPath ["a"]) (Entry.file [7])).createEntry
      (absPath ["a"]) (Entry.file [7]) = .error (.fileExists (absPath ["a"])) :=
  (c5_create_entry_semantics Vfs.new (absPath ["a"]) (Entry.file [7])).2.2 [7] [7]
    _ ((c5_create_entry_semantics Vfs.new (absPath ["a"]) (Entry.file [7])).2.1 (by decide))

/-! ### C6 -/

/-- C6: the decision sequence of `create_dir(p)` — reading the claim's
clauses as the ordered guard cases they are in the code: an absent parent is
`NoSuchFileOrDirectory`, a parent present as a file is `NotADirectory`;
past the parent checks, an existing directory or symlink at `p` is a
successful no-op and an existing file at `p` is `FileExists`. -/
theorem c6_create_dir_cases :
    ∀ (v : Vfs) (p par : FsPath), p.parent = some par →
      (v.contains par = false →
        v.createDir p = .error (.noSuchFileOrDirectory par)) ∧
      (v.contains par = true → v.containsFile par = true →
        v.createDir p = .error (.notADirectory par)) ∧
      (v.contains par = true → v.containsFile par = false →
        ∀ e, v.get p = some e → (e.isDir || e.isSymlink) = true →
          v.createDir p = .ok v) ∧
      (v.contains par = true → v.containsFile par = false →
        ∀ e, v.get p = some e → e.isFile = true →
          v.createDir p = .error (.fileExists p)) := by
  intro v p par hpar
  refine ⟨?_, ?_, ?_, ?_⟩
  · intro h; simp [Vfs.createDir, hpar, h]
  · intro h hf; simp [Vfs.createDir, hpar, h, hf]
  · intro h hf e hget he
    have hmode : e.metadata.mode = DIRECTORY_MODE ∨ e.metadata.mode = SYMLINK_MODE := by
      rcases Bool.or_eq_true_iff.mp he with h' | h'
      · exact Or.inl (by simpa [Entry.isDir] using h')
      · exact Or.inr (by simpa [Entry.isSymlink] using h')
    simp [Vfs.createDir, hpar, h, hf, hget, he]
  · intro h hf e hget he
    have hmode : e.metadata.mode = FILE_MODE := by simpa [Entry.isFile] using he
    have hdir : e.isDir = false := by
      simp [Entry.isDir, hmode, FILE_MODE, DIRECTORY_MODE]
    have hsym : e.isSymlink = false := by
      simp [Entry.isSymlink, hmode, FILE_MODE, SYMLINK_MODE]
    simp [Vfs.createDir, hpar, h, hf, hget, hdir, hsym, he]

/-- Witness for C6 at a concrete input: creating `/a/b` in a fresh VFS
fails because the parent `/a` is absent. -/
theorem c6_witness :
    Vfs.new.createDir (absPath ["a", "b"]) =
      .error (.noSuchFileOrDirectory (absPath ["a"])) :=
  (c6_create_dir_cases Vfs.new (absPath ["a", "b"]) (absPath ["a"]) (by decide)).1
    (by decide)

/-! ### C7 -/

/-- C7: `ModuleFormat::from_bytes` classifies by magic prefix (ELF, zstd,
xz, gzip), rejects every input shorter than 6 bytes with
`TooSmallForMagic`, and rejects every input of at least 6 bytes matching
no magic with `UnknownMagic`. -/
theorem c7_module_format_magic :
    ∀ (data : List Nat),
      (data.length < 6 → ModuleFormat.fromBytes data = .error .tooSmallForMagic) ∧
      (6 ≤ data.length →
        (data.take 4 = MAGIC_ELF → ModuleFormat.fromBytes data = .ok .elf) ∧
        (data.take 4 = MAGIC_ZSTD → ModuleFormat.fromBytes data = .ok .zstd) ∧
        (data.take 6 = MAGIC_XZ → ModuleFormat.fromBytes data = .ok .xz) ∧
        (data.take 2 = MAGIC_GZ → ModuleFormat.fromBytes data = .ok .gzip) ∧
        (data.take 4 ≠ MAGIC_ELF → data.take 4 ≠ MAGIC_ZSTD →
         data.take 6 ≠ MAGIC_XZ → data.take 2 ≠ MAGIC_GZ →
         ModuleFormat.fromBytes data = .error .unknownMagic)) := by
  intro data
  constructor
  · intro h
    simp [ModuleFormat.fromBytes, FORMAT_MIN_BYTES_LEN, h]
  · intro h6
    have hlen : ¬ data.length < 6 := by omega
    refine ⟨?_, ?_, ?_, ?_, ?_⟩
    · intro h
      simp [ModuleFormat.fromBytes, FORMAT_MIN_BYTES_LEN, hlen, h]
    · intro h
      have hne : ¬ ((MAGIC_ZSTD : List Nat) = MAGIC_ELF) := by decide
      simp [ModuleFormat.fromBytes, FORMAT_MIN_BYTES_LEN, hlen, h, hne]
    · intro h
      have h4 : data.take 4 = [0xFD, 0x37, 0x7A, 0x58] := by
        have hc := congrArg (List.take 4) h
        simpa [List.take_take, MAGIC_XZ] using hc
      have hne : ¬ (([0xFD, 0x37, 0x7A, 0x58] : List Nat) = MAGIC_ELF) := by decide
      have hne2 : ¬ (([0xFD, 0x37, 0x7A, 0x58] : List Nat) = MAGIC_ZSTD) := by decide
      simp [ModuleFormat.fromBytes, FORMAT_MIN_BYTES_LEN, hlen, h, h4, hne, hne2]
    · intro h
      have hne : data.take 4 ≠ MAGIC_ELF := by
        intro h'
        have hc := congrArg (List.take 2) h'
        simp [List.take_take, MAGIC_ELF] at hc
        rw [h] at hc
        exact absurd hc (by decide)
      have hne2 : data.take 4 ≠ MAGIC_ZSTD := by
        intro h'
        have hc := congrArg (List.take 2) h'
        simp [List.take_take, MAGIC_ZSTD] at hc
        rw [h] at hc
        exact absurd hc (by decide)
      have hne3 : data.take 6 ≠ MAGIC_XZ := by
        intro h'
        have hc := congrArg (List.take 2) h'
        simp [List.take_take, MAGIC_XZ] at hc
        rw [h] at hc
        exact absurd hc (by decide)
      simp [ModuleFormat.fromBytes, FORMAT_MIN_BYTES_LEN, hlen, h, hne, hne2, hne3]
    · intro h1 h2 h3 h4
      simp [ModuleFormat.fromBytes, FORMAT_MIN_BYTES_LEN, hlen, h1, h2, h3, h4]

/-- Witness for C7 at concrete inputs: a 6-byte ELF-magic payload is
classified `Elf` while the 5-byte one is `TooSmallForMagic`. -/
theorem c7_witness :
    ModuleFormat.fromBytes [0x7F, 0x45, 0x4C, 0x46, 0x00, 0x00] = .ok .elf ∧
    ModuleFormat.fromBytes [0x7F, 0x45, 0x4C, 0x46, 0x00] = .error .tooSmallForMagic :=
  ⟨((c7_module_format_magic _).2 (by decide)).1 (by decide),
   (c7_module_format_magic _).1 (by decide)⟩

/-! ### C10 -/

/-- A non-canonical entry as `Entry::try_from` copies from the host: an
executable with its permission bits preserved (mode `0o100755`). -/
def hostExecEntry : Entry := ⟨{ mode := 0o100755 }, some [1, 2]⟩

/-- The C10 counterexample VFS: the non-canonical entry sits at `/a/b`
while its parent `/a` is absent (reachable — `create_entry` performs no
parent checks). -/
def c10Vfs : Vfs := runOps [.createEntry (absPath ["a", "b"]) hostExecEntry]

/-- C10 counterexample: at a path holding a non-canonical-mode entry whose
parent is absent, `create_dir` does *not* succeed — it fails with
`NoSuchFileOrDirectory` (though indeed not with `FileExists`). -/
theorem c10_counterexample :
    c10Vfs.get (absPath ["a", "b"]) = some hostExecEntry ∧
    hostExecEntry.metadata.mode ≠ DIRECTORY_MODE ∧
    hostExecEntry.metadata.mode ≠ FILE_MODE ∧
    hostExecEntry.metadata.mode ≠ SYMLINK_MODE ∧
    c10Vfs.createDir (absPath ["a", "b"]) =
      .error (.noSuchFileOrDirectory (absPath ["a"])) := by decide

/-- C10 amended: at a path holding an entry whose mode equals none of the
three canonical constants, `create_entry` succeeds and silently replaces
it, and `create_dir` — provided the parent checks pass — succeeds and
replaces it with a directory entry; neither reports `FileExists`. -/
theorem c10_noncanonical_replace :
    ∀ (v : Vfs) (p : FsPath) (e0 : Entry),
      v.get p = some e0 →
      e0.metadata.mode ≠ DIRECTORY_MODE →
      e0.metadata.mode ≠ FILE_MODE →
      e0.metadata.mode ≠ SYMLINK_MODE →
      (∀ e, v.createEntry p e = .ok (v.insert p e)) ∧
      (∀ par, p.parent = some par → v.contains par = true →
        v.containsFile par = false →
        v.createDir p = .ok (v.insert p Entry.directory)) := by
  intro v p e0 hget hd hf hs
  have hfile : e0.isFile = false := by
    simp [Entry.isFile]
    exact hf
  have hdir : e0.isDir = false := by
    simp [Entry.isDir]
    exact hd
  have hsym : e0.isSymlink = false := by
    simp [Entry.isSymlink]
    exact hs
  constructor
  · intro e
    have hcf : v.containsFile p = false := by simp [Vfs.containsFile, hget, hfile]
    simp [Vfs.createEntry, hcf]
  · intro par hpar hc hcf
    simp [Vfs.createDir, hpar, hc, hcf, hget, hdir, hsym, hfile]

/-- The C10 witness VFS: same non-canonical entry, parent present. -/
def c10VfsW : Vfs :=
  runOps [.createDir (absPath ["a"]), .createEntry (absPath ["a", "b"]) hostExecEntry]

/-- Witness for C10 amended at a concrete input. -/
theorem c10_witness :
    c10VfsW.createDir (absPath ["a", "b"]) =
      .ok (c10VfsW.insert (absPath ["a", "b"]) Entry.directory) :=
  (c10_noncanonical_replace c10VfsW (absPath ["a", "b"]) hostExecEntry
    (by decide) (by decide) (by decide) (by decide)).2
    (absPath ["a"]) (by decide) (by decide) (by decide)

/-! ### C4 -/

/-- A successful `create_dir` either leaves the VFS unchanged or inserts
one directory entry at the argument path. -/
theorem createDir_shape (v : Vfs) (p : FsPath) (v' : Vfs)
    (h : v.createDir p = .ok v') :
    v' = v ∨ v' = v.insert p Entry.directory := by
  unfold Vfs.createDir at h
  repeat' split at h
  all_goals cases h
  all_goals first | exact Or.inl rfl | exact Or.inr rfl

/-- Operations that never store a non-directory entry at the root. -/
def rootSafe : VfsOp → Prop
  | .createEntry p e => p = rootPath → e.metadata.mode = DIRECTORY_MODE
  | _ => True

/-- The root invariant: `/` is present with `DIR` mode. -/
def rootIsDir (v : Vfs) : Prop :=
  ∃ e, v.get rootPath = some e ∧ e.metadata.mode = DIRECTORY_MODE

theorem rootIsDir_insert (v : Vfs) (p : FsPath) (e : Entry) (h : rootIsDir v)
    (hp : p = rootPath → e.metadata.mode = DIRECTORY_MODE) :
    rootIsDir (v.insert p e) := by
  by_cases hq : p = rootPath
  · subst hq
    exact ⟨e, Vfs.get_insert_self _ _ _, hp rfl⟩
  · obtain ⟨e0, hg, hm⟩ := h
    refine ⟨e0, ?_, hm⟩
    rw [Vfs.get_insert_ne v p rootPath e (fun hh => hq hh.symm)]
    exact hg

theorem rootIsDir_applyOp (v : Vfs) (op : VfsOp) (hop : rootSafe op)
    (h : rootIsDir v) : rootIsDir (applyOp v op) := by
  cases op with
  | createDir p =>
    simp only [applyOp]
    cases hc : v.createDir p with
    | ok v' =>
      simp only [hc]
      rcases createDir_shape v p v' hc with h1 | h1
      · rw [h1]; exact h
      · rw [h1]; exact rootIsDir_insert v p Entry.directory h (fun _ => rfl)
    | error e => simp only [hc]; exact h
  | createDirAll p =>
    simp only [applyOp]
    have loop : ∀ (ds : List FsPath) (w : Vfs), rootIsDir w →
        rootIsDir (createDirLoop w ds).1 := by
      intro ds
      induction ds with
      | nil => intro w hw; exact hw
      | cons d t ih =>
        intro w hw
        simp only [createDirLoop]
        cases hc : w.createDir d with
        | ok w' =>
          simp only [hc]
          rcases createDir_shape w d w' hc with h1 | h1
          · rw [h1]; exact ih w hw
          · rw [h1]
            exact ih _ (rootIsDir_insert w d Entry.directory hw (fun _ => rfl))
        | error e => simp only [hc]; exact hw
    unfold Vfs.createDirAllSt
    by_cases hd : v.containsDir p = true
    · rw [if_pos hd]
      exact h
    · rw [if_neg hd]
      exact loop _ v h
  | createEntry p e =>
    simp only [applyOp]
    cases hc : v.createEntry p e with
    | ok v' =>
      simp only [hc]
      unfold Vfs.createEntry at hc
      by_cases hf : v.containsFile p = true
      · rw [if_pos hf] at hc; cases hc
      · rw [if_neg hf] at hc
        cases hc
        exact rootIsDir_insert v p e h hop
    | error _ => simp only [hc]; exact h

/-- C4 amended: every VFS reachable from `Vfs::new()` by `create_dir`,
`create_dir_all` and `create_entry` operations keeps the root path `/`
mapped to a `DIR`-mode entry, provided no `create_entry` stores a
non-directory-mode entry at `/` itself. -/
theorem c4_root_invariant :
    ∀ ops : List VfsOp, (∀ op ∈ ops, rootSafe op) → rootIsDir (runOps ops) := by
  intro ops hops
  have main : ∀ (l : List VfsOp) (v : Vfs), (∀ op ∈ l, rootSafe op) → rootIsDir v →
      rootIsDir (l.foldl applyOp v) := by
    intro l
    induction l with
    | nil => intro v _ hv; exact hv
    | cons a t ih =>
      intro v hl hv
      simp only [List.foldl]
      exact ih _ (fun op hop => hl op (by simp [hop]))
        (rootIsDir_applyOp v a (hl a (by simp)) hv)
  exact main ops Vfs.new hops ⟨Entry.directory, by decide, rfl⟩

/-- C4 counterexample: `create_entry` at `/` itself succeeds (the root is
not a *file*) and replaces the root with a `FILE`-mode entry, so the
invariant does not survive arbitrary `create_entry` sequences. -/
theorem c4_counterexample :
    (runOps [.createEntry rootPath (Entry.file [])]).get rootPath =
      some (Entry.file []) ∧
    (Entry.file []).metadata.mode ≠ DIRECTORY_MODE := by decide

/-- Witness for C4 amended on a concrete operation sequence. -/
theorem c4_witness : rootIsDir (runOps [.createDir (absPath ["a"])]) :=
  c4_root_invariant _ (by
    intro op hop
    simp at hop
    subst hop
    trivial)

/-! ### C3 -/

/-- Host path of the C3 dependency module (a zstd-compressed `.ko`). -/
def c3DepHostPath : FsPath :=
  absPath ["usr", "lib", "modules", "r", "kernel", "fs", "d.ko.zst"]

/-- A normal (non-builtin) module `d` with no further dependencies. -/
def c3Dep : KModule := ⟨"d", some c3DepHostPath, some ⟨[], [], [], []⟩⟩

/-- A builtin module `b` (absent host path) that *declares* a dependency
on `d`. -/
def c3Builtin : KModule := ⟨"b", none, some ⟨[], ["d"], [], []⟩⟩

/-- The kmod environment of the C3 counterexample. -/
def c3Env : KmodEnv :=
  { release := "r"
    moduleFromName := fun n => if n = "d" then some c3Dep else none
    readFile := fun _ => some [0x28, 0xB5, 0x2F, 0xFD, 1, 2]
    decompress := fun _ d => some d }

/-- The install path `d` would receive. -/
def c3DepInstallPath : FsPath :=
  absPath ["usr", "lib", "modules", "r", "kernel", "fs", "d.ko"]

/-- C3 counterexample: `add_module` on the builtin `b` returns success with
the VFS *unchanged* — its declared dependency `d` is not recursed into
(second conjunct: had `d` been processed, its install path would be
present). -/
theorem c3_counterexample :
    addModule 5 c3Env c3Builtin Vfs.new = some (.ok Vfs.new) ∧
    (match addModule 5 c3Env c3Dep Vfs.new with
     | some (.ok v) => v.contains c3DepInstallPath
     | _ => false) = true := by decide

/-- C3 amended: for a builtin kernel module (absent `host_path`),
`add_module` returns success immediately, installing nothing and *not*
recursing into any declared dependencies — builtins carry no `.modinfo`
to expand. -/
theorem c3_builtin_no_recursion :
    ∀ (kenv : KmodEnv) (m : KModule) (v : Vfs) (fuel : Nat),
      m.hostPath = none → addModule (fuel + 1) kenv m v = some (.ok v) := by
  intro kenv m v fuel h
  simp [addModule, addModuleF, h]

/-- Witness for C3 amended at a concrete input. -/
theorem c3_witness : addModule 1 c3Env c3Builtin Vfs.new = some (.ok Vfs.new) :=
  c3_builtin_no_recursion c3Env c3Builtin Vfs.new 0 (by decide)

/-! ### C2 -/

/-- Module `a` of the C2 cycle: depends on `b`. -/
def c2ModA : KModule :=
  ⟨"a", some (absPath ["usr", "lib", "modules", "r", "kernel", "a.ko"]),
   some ⟨[], ["b"], [], []⟩⟩

/-- Module `b` of the C2 cycle: depends on `a`. -/
def c2ModB : KModule :=
  ⟨"b", some (absPath ["usr", "lib", "modules", "r", "kernel", "b.ko"]),
   some ⟨[], ["a"], [], []⟩⟩

/-- The kmod environment of the two-module dependency cycle. -/
def c2KEnv : KmodEnv :=
  { release := "r"
    moduleFromName := fun n =>
      if n = "a" then some c2ModA else if n = "b" then some c2ModB else none
    readFile := fun _ => some [0x7F, 0x45, 0x4C, 0x46, 0, 0]
    decompress := fun _ d => some d }

/-- Termination of `add_module` on the cyclic graph: some fuel suffices for
the embedded recursion to complete (with any outcome). -/
def c2ModuleCycleTerminates : Prop :=
  ∃ (fuel : Nat) (r : Except InitramfsError Vfs),
    addModule fuel c2KEnv c2ModA Vfs.new = some r

theorem c2_cycle_none :
    ∀ (fuel : Nat) (v : Vfs),
      addModuleF c2KEnv fuel (.inl c2ModA) v = none ∧
      addModuleF c2KEnv fuel (.inl c2ModB) v = none ∧
      addModuleF c2KEnv fuel (.inr ["a"]) v = none ∧
      addModuleF c2KEnv fuel (.inr ["b"]) v = none := by
  intro fuel
  induction fuel with
  | zero => intro v; exact ⟨rfl, rfl, rfl, rfl⟩
  | succ n ih =>
    intro v
    refine ⟨?_, ?_, ?_, ?_⟩
    · have hb := (ih v).2.2.2
      simp [addModuleF, c2ModA, obind, hb]
    · have ha := (ih v).2.2.1
      simp [addModuleF, c2ModB, obind, ha]
    · have ha := (ih v).1
      have hlook : c2KEnv.moduleFromName "a" = some c2ModA := by decide
      simp [addModuleF, hlook, obind, ha]
    · have hb := (ih v).2.1
      have hlook : c2KEnv.moduleFromName "b" = some c2ModB := by decide
      simp [addModuleF, hlook, obind, hb]

/-- C2 counterexample: on the two-module cycle `a ↔ b`, `add_module` checks
the install path only *after* recursing into the dependencies, so the
recursion never terminates — no fuel makes the embedded recursion return. -/
theorem c2_counterexample : ¬ c2ModuleCycleTerminates := by
  rintro ⟨fuel, r, h⟩
  have hnone := (c2_cycle_none fuel Vfs.new).1
  rw [addModule] at h
  rw [hnone] at h
  cases h

/-- Library `liba.so` of the C2 ELF cycle. -/
def c2LibA : FsPath := absPath ["usr", "lib", "liba.so"]

/-- Library `libb.so` of the C2 ELF cycle. -/
def c2LibB : FsPath := absPath ["usr", "lib", "libb.so"]

/-- A host view with the two libraries needing each other. -/
def c2ElfEnv : ElfEnv :=
  { findBinary := fun _ => none
    pathExists := fun p => p == c2LibA || p == c2LibB
    readEntry := fun p =>
      if p = c2LibA then some (Entry.file [1])
      else if p = c2LibB then some (Entry.file [2])
      else none
    linkedLibraries := fun p =>
      if p = c2LibA then some [c2LibB]
      else if p = c2LibB then some [c2LibA]
      else none }

/-- C2 amended: `add_elf` alone checks the computed destination against the
VFS *before* descending — when the resolved path is present it returns at
once, leaving the VFS untouched, and on a cyclic library graph its
recursion therefore terminates (second conjunct: the concrete
two-library cycle completes successfully). -/
theorem c2_elf_checks_before_descending :
    (∀ (env : ElfEnv) (p path : FsPath) (v : Vfs) (fuel : Nat),
      resolveElfPath env p = some path →
      v.contains path = true →
      addElf (fuel + 1) env p v = some (.ok v)) ∧
    (match addElf 5 c2ElfEnv c2LibA Vfs.new with
     | some (.ok _) => true
     | _ => false) = true := by
  constructor
  · intro env p path v fuel h hc
    simp [addElf, addElfF, h, hc]
  · decide

/-- A VFS already holding `liba.so`. -/
def c2VfsWithA : Vfs := Vfs.new.insert c2LibA (Entry.file [1])

/-- Witness for C2 amended at a concrete input: one unit of fuel is enough
when the destination is already present, since no descent happens. -/
theorem c2_witness : addElf 1 c2ElfEnv c2LibA c2VfsWithA = some (.ok c2VfsWithA) :=
  c2_elf_checks_before_descending.1 c2ElfEnv c2LibA c2LibA c2VfsWithA 0
    (by decide) (by decide)

/-! ### C9 -/

/-- Host view for C9: `broken.service` exists but its file, while
well-formed under the grammar, has no `[Unit]` section. -/
def c9HostNoUnit : UnitHost :=
  { findUnit := fun n =>
      if n = "broken.service" then
        some (absPath ["usr", "lib", "systemd", "system", "broken.service"])
      else none
    readToString := fun _ => some "[Install]\nWantedBy=default.target\n"
    pathExists := fun _ => false }

/-- Host view for C9: the unit file declares `[Service]` without any
`ExecStart` key. -/
def c9HostNoExec : UnitHost :=
  { findUnit := fun n =>
      if n = "broken.service" then
        some (absPath ["usr", "lib", "systemd", "system", "broken.service"])
      else none
    readToString := fun _ =>
      some "[Unit]\nDescription=x\n\n[Service]\nType=oneshot\n"
    pathExists := fun _ => false }

/-- C9: `Unit::from_name` *panics* (modelled as `none`) instead of
returning a typed `UnitError` on both malformed-but-parseable inputs: a
unit file without a `[Unit]` section
(`properties.get("Unit").expect("Unit section is declared")`), and a
`[Service]` section without `ExecStart`
(`service.get("ExecStart").expect("ExecStart property is declared")`). -/
theorem c9_from_name_panics :
    unitFromName c9HostNoUnit "broken.service" = none ∧
    unitFromName c9HostNoExec "broken.service" = none := by decide

/-! ### C8 -/

/-- The discovered install path of the C8 unit. -/
def c8InstallPath : FsPath :=
  absPath ["usr", "lib", "systemd", "system", "sysinit.target.wants", "u.service"]

/-- The C8 unit `u.service` with a discovered install path and no binaries
or dependencies. -/
def c8Unit : SdUnit :=
  { path := absPath ["usr", "lib", "systemd", "system", "u.service"]
    data := [1]
    binaries := []
    dependencies := []
    installPath := some c8InstallPath }

/-- The C8 environment resolving only `u.service`. -/
def c8Env : SdEnv :=
  { findUnit := fun n => if n = "u.service" then some c8Unit else none
    elf := ⟨fun _ => none, fun _ => false, fun _ => none, fun _ => none⟩ }

/-- A reachable VFS that already holds an entry at the *relative* path
`../u.service` — the symlink target `add_symlink` checks
(`create_entry` never validates paths, so such a key is reachable through
the public API, e.g. by an `add_files` destination of `..`). -/
def c8Vfs : Vfs := runOps [.createEntry (unitSymlinkTarget "u.service") Entry.directory]

/-- The final VFS of the C8 counterexample run. -/
def c8Final : Vfs :=
  match addSystemdUnit 3 c8Env "u.service" c8Vfs with
  | some (.ok v) => v
  | _ => Vfs.new

/-- C8 counterexample: processing `u.service` succeeds, installs the unit
file, and yet leaves *no* entry at the discovered install path — the
target-guarded `add_symlink` silently skips the install because the VFS
already contains the relative target path `../u.service`. -/
theorem c8_counterexample :
    addSystemdUnit 3 c8Env "u.service" c8Vfs = some (.ok c8Final) ∧
    c8Final.contains c8Unit.path = true ∧
    c8Final.get c8InstallPath = none := by decide

theorem liftVfs_createEntry_ok (w : Vfs) (p : FsPath) (e : Entry) (v' : Vfs)
    (h : liftVfs (w.createEntry p e) = some (.ok v')) :
    v' = w.insert p e := by
  unfold Vfs.createEntry at h
  by_cases hf : w.containsFile p = true
  · rw [if_pos hf] at h
    simp [liftVfs] at h
  · rw [if_neg hf] at h
    simp [liftVfs] at h
    exact h.symm

/-- A successful `add_symlink` whose target was absent leaves the symlink
entry at the requested path. -/
theorem addSymlink_installs (v : Vfs) (p t : FsPath) (v' : Vfs)
    (htgt : v.contains t = false)
    (h : addSymlink v p t = some (.ok v')) :
    v'.get p = some (Entry.symlink t) := by
  unfold addSymlink at h
  rw [if_neg (by simp [htgt])] at h
  rcases hp : p.parent with _ | par
  · rw [hp] at h
    simp only [obind] at h
    rw [liftVfs_createEntry_ok v p (Entry.symlink t) v' h]
    exact Vfs.get_insert_self _ _ _
  · rw [hp] at h
    simp only [obind] at h
    cases hda : v.createDirAll par with
    | ok w =>
      rw [hda] at h
      simp only [liftVfs, obind] at h
      rw [liftVfs_createEntry_ok w p (Entry.symlink t) v' h]
      exact Vfs.get_insert_self _ _ _
    | error e =>
      rw [hda] at h
      simp [liftVfs, obind] at h

/-- C8 amended: when `u.service` has a discovered install path, processing
installs a symlink with target `../u.service` at that path *provided* the
VFS does not already contain an entry at the relative target path when the
symlink step runs; the symlink is then in the final VFS whenever the
subsequent dependency processing leaves the install path's entry unchanged
(in particular always when the unit has no dependencies). -/
theorem c8_install_symlink :
    ∀ (env : SdEnv) (name : String) (u : SdUnit) (p : FsPath) (fuel : Nat)
      (v v1 v2 v3 v' : Vfs),
      env.findUnit name = some u →
      u.installPath = some p →
      installUnitFile u v = some (.ok v1) →
      addUnitBinaries fuel env.elf u.binaries v1 = some (.ok v2) →
      v2.contains (unitSymlinkTarget name) = false →
      installUnitSymlink name u v2 = some (.ok v3) →
      addUnitDeps fuel env u.dependencies v3 = some (.ok v') →
      v'.get p = v3.get p →
      addSystemdUnit (fuel + 1) env name v = some (.ok v') ∧
      v'.get p = some (Entry.symlink (unitSymlinkTarget name)) := by
  intro env name u p fuel v v1 v2 v3 v' hu hip h1 h2 htgt h3 h4 hstable
  constructor
  · rw [addUnitDeps] at h4
    simp only [addSystemdUnit, addUnitF, hu, obind, h1, h2, h3]
    exact h4
  · rw [hstable]
    rw [installUnitSymlink, hip] at h3
    exact addSymlink_installs v2 p (unitSymlinkTarget name) v3 htgt h3

/-- The VFS after the C8 witness's unit-file stage. -/
def c8W1 : Vfs :=
  match installUnitFile c8Unit Vfs.new with
  | some (.ok v) => v
  | _ => Vfs.new

/-- The VFS after the C8 witness's symlink stage. -/
def c8W3 : Vfs :=
  match installUnitSymlink "u.service" c8Unit c8W1 with
  | some (.ok v) => v
  | _ => Vfs.new

/-- Witness for C8 amended on a concrete run from a fresh builder VFS. -/
theorem c8_witness :
    addSystemdUnit 2 c8Env "u.service" Vfs.new = some (.ok c8W3) ∧
    c8W3.get c8InstallPath =
      some (Entry.symlink (unitSymlinkTarget "u.service")) :=
  c8_install_symlink c8Env "u.service" c8Unit c8InstallPath 1 Vfs.new c8W1 c8W1
    c8W3 c8W3 (by decide) (by decide) (by decide) (by decide) (by decide)
    (by decide) (by decide) (by decide)


/-! ### C1: order lemmas for the path comparator -/

theorem charToNat_inj {a b : Char} (h : a.toNat = b.toNat) : a = b := by
  have ha := Char.ofNat_toNat a
  rw [h] at ha
  rw [← ha, Char.ofNat_toNat]

theorem natCmp_swap (a b : Nat) : natCmp a b = (natCmp b a).swap := by
  unfold natCmp
  split_ifs <;> first | rfl | omega

theorem natCmp_eq_iff (a b : Nat) : natCmp a b = .eq ↔ a = b := by
  unfold natCmp
  split_ifs <;> simp <;> omega

theorem natCmp_lt_trans {a b c : Nat} (h1 : natCmp a b = .lt)
    (h2 : natCmp b c = .lt) : natCmp a c = .lt := by
  unfold natCmp at h1 h2 ⊢
  split_ifs at h1 h2 ⊢ <;> first | rfl | omega

theorem charsCmp_eq_iff : ∀ (a b : List Char), charsCmp a b = .eq ↔ a = b
  | [], [] => by simp [charsCmp]
  | [], _ :: _ => by simp [charsCmp]
  | _ :: _, [] => by simp [charsCmp]
  | x :: xs, y :: ys => by
    simp only [charsCmp]
    rcases hn : natCmp x.toNat y.toNat with _ | _ | _
    · constructor
      · intro h; simp at h
      · intro h
        cases h
        rw [(natCmp_eq_iff x.toNat x.toNat).mpr rfl] at hn
        cases hn
    · have hxy : x = y := charToNat_inj ((natCmp_eq_iff _ _).mp hn)
      subst hxy
      rw [charsCmp_eq_iff xs ys]
      simp
    · constructor
      · intro h; simp at h
      · intro h
        cases h
        rw [(natCmp_eq_iff x.toNat x.toNat).mpr rfl] at hn
        cases hn

theorem charsCmp_swap : ∀ (a b : List Char), charsCmp a b = (charsCmp b a).swap
  | [], [] => rfl
  | [], _ :: _ => rfl
  | _ :: _, [] => rfl
  | a :: as, b :: bs => by
    simp only [charsCmp]
    rw [natCmp_swap a.toNat b.toNat]
    rcases natCmp b.toNat a.toNat with _ | _ | _
    · rfl
    · simpa [Ordering.swap] using charsCmp_swap as bs
    · rfl

theorem charsCmp_lt_trans : ∀ (a b c : List Char), charsCmp a b = .lt →
    charsCmp b c = .lt → charsCmp a c = .lt
  | [], [], _, h1, _ => by simp [charsCmp] at h1
  | [], _ :: _, [], _, h2 => by simp [charsCmp] at h2
  | [], _ :: _, _ :: _, _, _ => rfl
  | _ :: _, [], _, h1, _ => by simp [charsCmp] at h1
  | _ :: _, _ :: _, [], _, h2 => by simp [charsCmp] at h2
  | a :: as, b :: bs, c :: cs, h1, h2 => by
    simp only [charsCmp] at h1 h2 ⊢
    rcases hab : natCmp a.toNat b.toNat with _ | _ | _ <;> rw [hab] at h1 <;>
      rcases hbc : natCmp b.toNat c.toNat with _ | _ | _ <;> rw [hbc] at h2
    · rw [natCmp_lt_trans hab hbc]
    · have h3 : b.toNat = c.toNat := (natCmp_eq_iff _ _).mp hbc
      rw [← h3, hab]
    · simp at h2
    · have h3 : a.toNat = b.toNat := (natCmp_eq_iff _ _).mp hab
      rw [h3, hbc]
    · have h3 : a.toNat = b.toNat := (natCmp_eq_iff _ _).mp hab
      rw [h3, hbc]
      exact charsCmp_lt_trans as bs cs h1 h2
    · simp at h2
    · simp at h1
    · simp at h1
    · simp at h1

theorem strCmp_eq_iff (a b : String) : strCmp a b = .eq ↔ a = b := by
  unfold strCmp
  rw [charsCmp_eq_iff]
  exact ⟨fun h => congrArg String.mk h, fun h => congrArg String.data h⟩

theorem compCmp_eq_iff : ∀ (a b : Comp), compCmp a b = .eq ↔ a = b
  | .parentDir, .parentDir => by simp [compCmp]
  | .parentDir, .normal _ => by simp [compCmp]
  | .normal _, .parentDir => by simp [compCmp]
  | .normal a, .normal b => by
    simp only [compCmp]
    rw [strCmp_eq_iff]
    simp

theorem compCmp_swap : ∀ (a b : Comp), compCmp a b = (compCmp b a).swap
  | .parentDir, .parentDir => rfl
  | .parentDir, .normal _ => rfl
  | .normal _, .parentDir => rfl
  | .normal a, .normal b => charsCmp_swap a.data b.data

theorem compCmp_lt_trans : ∀ (a b c : Comp), compCmp a b = .lt →
    compCmp b c = .lt → compCmp a c = .lt
  | .parentDir, .parentDir, _, h1, _ => by simp [compCmp] at h1
  | .parentDir, .normal _, .parentDir, _, h2 => by simp [compCmp] at h2
  | .parentDir, .normal _, .normal _, _, _ => rfl
  | .normal _, .parentDir, _, h1, _ => by simp [compCmp] at h1
  | .normal _, .normal _, .parentDir, _, h2 => by simp [compCmp] at h2
  | .normal a, .normal b, .normal c, h1, h2 =>
    charsCmp_lt_trans a.data b.data c.data h1 h2

theorem compsCmp_eq_iff : ∀ (a b : List Comp), compsCmp a b = .eq ↔ a = b
  | [], [] => by simp [compsCmp]
  | [], _ :: _ => by simp [compsCmp]
  | _ :: _, [] => by simp [compsCmp]
  | x :: xs, y :: ys => by
    simp only [compsCmp]
    rcases hn : compCmp x y with _ | _ | _
    · constructor
      · intro h; simp at h
      · intro h
        cases h
        rw [(compCmp_eq_iff x x).mpr rfl] at hn
        cases hn
    · have hxy : x = y := (compCmp_eq_iff _ _).mp hn
      subst hxy
      rw [compsCmp_eq_iff xs ys]
      simp
    · constructor
      · intro h; simp at h
      · intro h
        cases h
        rw [(compCmp_eq_iff x x).mpr rfl] at hn
        cases hn

theorem compsCmp_swap : ∀ (a b : List Comp), compsCmp a b = (compsCmp b a).swap
  | [], [] => rfl
  | [], _ :: _ => rfl
  | _ :: _, [] => rfl
  | a :: as, b :: bs => by
    simp only [compsCmp]
    rw [compCmp_swap a b]
    rcases compCmp b a with _ | _ | _
    · rfl
    · simpa [Ordering.swap] using compsCmp_swap as bs
    · rfl

theorem compsCmp_lt_trans : ∀ (a b c : List Comp), compsCmp a b = .lt →
    compsCmp b c = .lt → compsCmp a c = .lt
  | [], [], _, h1, _ => by simp [compsCmp] at h1
  | [], _ :: _, [], _, h2 => by simp [compsCmp] at h2
  | [], _ :: _, _ :: _, _, _ => rfl
  | _ :: _, [], _, h1, _ => by simp [compsCmp] at h1
  | _ :: _, _ :: _, [], _, h2 => by simp [compsCmp] at h2
  | a :: as, b :: bs, c :: cs, h1, h2 => by
    simp only [compsCmp] at h1 h2 ⊢
    rcases hab : compCmp a b with _ | _ | _ <;> rw [hab] at h1 <;>
      rcases hbc : compCmp b c with _ | _ | _ <;> rw [hbc] at h2
    · rw [compCmp_lt_trans a b c hab hbc]
    · have h3 : b = c := (compCmp_eq_iff _ _).mp hbc
      rw [← h3, hab]
    · simp at h2
    · have h3 : a = b := (compCmp_eq_iff _ _).mp hab
      rw [h3, hbc]
    · have h3 : a = b := (compCmp_eq_iff _ _).mp hab
      rw [h3, hbc]
      exact compsCmp_lt_trans as bs cs h1 h2
    · simp at h2
    · simp at h1
    · simp at h1
    · simp at h1

theorem pathCmp_eq_iff (p q : FsPath) : pathCmp p q = .eq ↔ p = q := by
  obtain ⟨pa, pc⟩ := p
  obtain ⟨qa, qc⟩ := q
  cases pa <;> cases qa <;> simp only [pathCmp]
  · rw [compsCmp_eq_iff]
    simp
  · cases pc <;> simp
  · cases qc <;> simp
  · rw [compsCmp_eq_iff]
    simp

theorem pathCmp_swap (p q : FsPath) : pathCmp p q = (pathCmp q p).swap := by
  obtain ⟨pa, pc⟩ := p
  obtain ⟨qa, qc⟩ := q
  cases pa <;> cases qa <;> simp only [pathCmp]
  · exact compsCmp_swap pc qc
  · cases pc <;> rfl
  · cases qc <;> rfl
  · exact compsCmp_swap pc qc

theorem pathCmp_lt_trans : ∀ (p q r : FsPath), pathCmp p q = .lt →
    pathCmp q r = .lt → pathCmp p r = .lt := by
  intro ⟨pa, pc⟩ ⟨qa, qc⟩ ⟨ra, rc⟩ h1 h2
  cases pa <;> cases qa <;> cases ra <;> simp only [pathCmp] at h1 h2 ⊢
  · exact compsCmp_lt_trans pc qc rc h1 h2
  · cases qc with
    | nil => cases pc <;> simp [compsCmp] at h1
    | cons c cs => simp at h2
  · cases pc with
    | nil =>
      cases rc with
      | nil => cases qc <;> simp [compsCmp] at h2
      | cons c cs => simp [compsCmp]
    | cons c cs => simp at h1
  · cases pc with
    | nil => rfl
    | cons c cs => simp at h1
  · cases qc with
    | nil => simp at h1
    | cons c cs =>
      cases rc with
      | nil => simp [compsCmp] at h2
      | cons d ds => rfl
  · cases qc <;> simp at h1 h2
  · cases rc with
    | nil => simp at h2
    | cons c cs => rfl
  · exact compsCmp_lt_trans pc qc rc h1 h2

theorem pathLe_trans {p q r : FsPath} (h1 : pathLe p q) (h2 : pathLe q r) :
    pathLe p r := by
  unfold pathLe at h1 h2 ⊢
  rcases hpq : pathCmp p q with _ | _ | _
  · rcases hqr : pathCmp q r with _ | _ | _
    · rw [pathCmp_lt_trans p q r hpq hqr]
      simp
    · have : q = r := (pathCmp_eq_iff q r).mp hqr
      rw [← this, hpq]
      simp
    · exact absurd hqr h2
  · have : p = q := (pathCmp_eq_iff p q).mp hpq
    rw [this]
    exact h2
  · exact absurd hpq h1

theorem pathLe_total (p q : FsPath) : pathLe p q ∨ pathLe q p := by
  unfold pathLe
  rcases h : pathCmp p q with _ | _ | _
  · left; simp
  · left; simp
  · right
    have hs := pathCmp_swap p q
    rw [h] at hs
    rcases hqp : pathCmp q p with _ | _ | _
    · simp
    · rw [hqp] at hs; cases hs
    · rw [hqp] at hs; cases hs

instance : IsTrans (FsPath × Entry) entryLe :=
  ⟨fun _ _ _ h1 h2 => pathLe_trans h1 h2⟩

instance : IsTotal (FsPath × Entry) entryLe :=
  ⟨fun a b => pathLe_total a.1 b.1⟩


/-! ### C1: serializer emission lemmas -/

theorem serializeEntry_root (s : NewcSerializer) (e : Entry) :
    serializeEntry s rootPath e = some (.ok s) := by
  simp [serializeEntry]

theorem serializeEntry_ok_proj (s s1 : NewcSerializer) (p : FsPath) (e : Entry)
    (hp : p ≠ rootPath) (h : serializeEntry s p e = some (.ok s1)) :
    (∃ nm, s1.recs = s.recs ++ [⟨p, nm, s.count + INO_OFFSET⟩]) ∧
    s1.count = s.count + 1 := by
  simp only [serializeEntry, hp, if_false] at h
  split at h
  · exact absurd h (by simp)
  · split at h
    · exact absurd h (by simp)
    · simp only [Option.some.injEq, Except.ok.injEq] at h
      rw [← h]
      exact ⟨⟨_, rfl⟩, rfl⟩

theorem range'_snoc : ∀ (a n : Nat), List.range' a (n + 1) = List.range' a n ++ [a + n]
  | _, 0 => by simp [List.range'_succ]
  | a, n + 1 => by
    rw [List.range'_succ, range'_snoc (a + 1) n, List.range'_succ]
    simp only [List.cons_append, List.cons.injEq, List.append_cancel_left_eq,
      List.cons.injEq, and_true, true_and]
    omega

theorem serializeMany_spec :
    ∀ (es : List (FsPath × Entry)) (s s1 : NewcSerializer),
      serializeMany s es = some (.ok s1) →
      s1.recs.map SerRecord.path =
        s.recs.map SerRecord.path ++
          (es.map Prod.fst).filter (fun p => decide (p ≠ rootPath)) ∧
      s1.recs.map SerRecord.ino =
        s.recs.map SerRecord.ino ++
          List.range' (s.count + INO_OFFSET)
            (((es.map Prod.fst).filter (fun p => decide (p ≠ rootPath))).length) ∧
      s1.count = s.count +
        ((es.map Prod.fst).filter (fun p => decide (p ≠ rootPath))).length := by
  intro es
  induction es with
  | nil =>
    intro s s1 h
    simp only [serializeMany, Option.some.injEq, Except.ok.injEq] at h
    subst h
    simp
  | cons pe t ih =>
    obtain ⟨p, e⟩ := pe
    intro s s1 h
    simp only [serializeMany] at h
    by_cases hp : p = rootPath
    · subst hp
      rw [serializeEntry_root] at h
      simp only [obind] at h
      have hspec := ih s s1 h
      simpa using hspec
    · cases hse : serializeEntry s p e with
      | none => rw [hse] at h; simp [obind] at h
      | some r =>
        cases r with
        | error err => rw [hse] at h; simp [obind] at h
        | ok s2 =>
          rw [hse] at h
          simp only [obind] at h
          obtain ⟨⟨nm, hrecs⟩, hcount⟩ := serializeEntry_ok_proj s s2 p e hp hse
          obtain ⟨ih1, ih2, ih3⟩ := ih s2 s1 h
          refine ⟨?_, ?_, ?_⟩
          · rw [ih1, hrecs]
            simp [hp]
          · rw [ih2, hrecs, hcount]
            have hr : List.range' (s.count + INO_OFFSET)
                (((p :: t.map Prod.fst).filter (fun q => decide (q ≠ rootPath))).length) =
                (s.count + INO_OFFSET) ::
                  List.range' (s.count + 1 + INO_OFFSET)
                    (((t.map Prod.fst).filter (fun q => decide (q ≠ rootPath))).length) := by
              simp only [List.filter_cons]
              rw [if_pos (by simp [hp])]
              simp only [List.length_cons, List.range'_succ]
              congr 1
            simp only [List.map_cons, hr]
            simp [hp]
          · rw [ih3, hcount]
            simp [hp]
            omega

/-- C1 amended: a successful `Archive::serialize` emits the non-root
entries sorted by Rust's `Path` ordering — lexicographic over components,
each component compared byte-wise (which is *not* the byte-wise order of
the rendered path strings) — and assigns the ino of every emitted header,
trailer included, consecutively starting at the constant offset 1337 in
that order. -/
theorem c1_serialize_order :
    ∀ (a : Archive) (buf : List Nat) (recs : List SerRecord),
      a.serialize = some (.ok (buf, recs)) →
      List.Pairwise pathLe (recs.dropLast.map SerRecord.path) ∧
      recs.dropLast.map SerRecord.path =
        ((List.insertionSort entryLe a.entries).map Prod.fst).filter
          (fun p => decide (p ≠ rootPath)) ∧
      recs.map SerRecord.ino = List.range' INO_OFFSET recs.length := by
  intro a buf recs h
  rw [Archive.serialize] at h
  cases hsm : serializeMany ⟨0, [], []⟩ (List.insertionSort entryLe a.entries) with
  | none => rw [hsm] at h; simp [obind] at h
  | some r =>
    cases r with
    | error err => rw [hsm] at h; simp [obind] at h
    | ok s =>
      rw [hsm] at h
      simp only [obind] at h
      cases hse : serializeEntry s trailerPath Entry.directory with
      | none => rw [hse] at h; simp [obind] at h
      | some r2 =>
        cases r2 with
        | error err => rw [hse] at h; simp [obind] at h
        | ok s2 =>
          rw [hse] at h
          simp only [obind, Option.some.injEq, Except.ok.injEq, Prod.mk.injEq] at h
          obtain ⟨hbuf, hrecs⟩ := h
          obtain ⟨sp1, sp2, sp3⟩ := serializeMany_spec _ _ _ hsm
          obtain ⟨⟨nm, htr⟩, htc⟩ :=
            serializeEntry_ok_proj s s2 trailerPath Entry.directory (by decide) hse
          subst hrecs
          have hdrop : s2.recs.dropLast = s.recs := by
            rw [htr]
            simp
          have hlen : s.recs.length =
              (((List.insertionSort entryLe a.entries).map Prod.fst).filter
                (fun p => decide (p ≠ rootPath))).length := by
            have := congrArg List.length sp1
            simpa using this
          refine ⟨?_, ?_, ?_⟩
          · rw [hdrop]
            have hmap : s.recs.map SerRecord.path =
                ((List.insertionSort entryLe a.entries).map Prod.fst).filter
                  (fun p => decide (p ≠ rootPath)) := by
              simpa using sp1
            rw [hmap]
            have hsorted : List.Pairwise entryLe (List.insertionSort entryLe a.entries) :=
              List.sorted_insertionSort entryLe a.entries
            have hmapped : List.Pairwise pathLe
                ((List.insertionSort entryLe a.entries).map Prod.fst) :=
              List.pairwise_map.mpr hsorted
            exact List.Pairwise.sublist (List.filter_sublist _) hmapped
          · rw [hdrop]
            simpa using sp1
          · rw [htr]
            have hinos : s.recs.map SerRecord.ino =
                List.range' INO_OFFSET s.recs.length := by
              have h0 : s.count = s.recs.length := by
                rw [sp3, hlen]
                simp
              have := sp2
              simp only [List.map_nil, List.nil_append] at this
              rw [this, ← hlen]
              simp
            simp only [List.map_append, List.map_cons, List.map_nil, hinos]
            have hcnt : s.count = s.recs.length := by
              rw [sp3, hlen]
              simp
            rw [List.length_append]
            simp only [List.length_cons, List.length_nil]
            rw [range'_snoc, hcnt]
            simp [Nat.add_comm]

/-- The C1 counterexample VFS: files at `/a/c` and `/a!b` (created via
`create_entry`, which checks no parents). -/
def c1Vfs : Vfs :=
  runOps [.createEntry (absPath ["a", "c"]) (Entry.file [1]),
          .createEntry (absPath ["a!b"]) (Entry.file [2])]

/-- C1 counterexample: the serializer emits `/a/c` *before* `/a!b`
(components compare `"a" < "a!b"`), although byte-wise the rendered path
`/a!b` precedes `/a/c` (`0x21 < 0x2F`) — so emission is not byte-wise
ascending, and the inos (assigned in emission order) are not either. -/
theorem c1_counterexample :
    (serializeRecords (Archive.fromVfs c1Vfs)).map
      (fun rs => rs.dropLast.map SerRecord.path) =
      some [absPath ["a", "c"], absPath ["a!b"]] ∧
    bytesLt (absPath ["a!b"]).renderBytes (absPath ["a", "c"]).renderBytes = true := by
  decide

/-- The C1 witness archive. -/
def c1WArchive : Archive :=
  ⟨[(absPath ["x"], Entry.file [7]), (rootPath, Entry.directory)]⟩

/-- The C1 witness serialization outcome. -/
def c1WBuf : List Nat :=
  match c1WArchive.serialize with
  | some (.ok (b, _)) => b
  | _ => []

/-- The records of the C1 witness serialization. -/
def c1WRecs : List SerRecord :=
  match c1WArchive.serialize with
  | some (.ok (_, rs)) => rs
  | _ => []

set_option maxRecDepth 4000 in
/-- Witness for C1 amended at a concrete archive. -/
theorem c1_witness :
    List.Pairwise pathLe (c1WRecs.dropLast.map SerRecord.path) ∧
    c1WRecs.dropLast.map SerRecord.path =
      ((List.insertionSort entryLe c1WArchive.entries).map Prod.fst).filter
        (fun p => decide (p ≠ rootPath)) ∧
    c1WRecs.map SerRecord.ino = List.range' INO_OFFSET c1WRecs.length :=
  c1_serialize_order c1WArchive c1WBuf c1WRecs (by decide)

end Elusive
